import Mathlib

/-!
Verification of the spatial-audio direction inference and playback pipeline
of the web client (src/apps/web/app.js).

The embedding models:
* `extractPan` (app.js lines 157-163): tests the description text against the
  regexes `\b(2|3|4) o’clock\b` and `\b(8|9|10) o’clock\b` (both with the
  case-insensitive flag, neither global) and returns 0.6, -0.6 or 0.
  Text is modelled as `List Char`; the regex `test` calls are modelled by an
  executable scan over all start positions, with JavaScript word-boundary
  (`\b`, ASCII `\w = [A-Za-z0-9_]`) and non-Unicode case-insensitive
  canonicalisation (only ASCII letters fold; a non-ASCII character never
  matches an ASCII pattern character in non-Unicode mode) semantics.
* `speakDescription` (lines 121-142) and `playSpatial` (lines 144-155):
  the playback path, with the browser-side effects (AudioContext calls)
  recorded as an explicit event trace and the outcome of `decodeAudioData`
  on the fetched payload supplied as a boolean parameter.
* `base64ToBlob` (lines 172-179) on top of a model of the platform `atob`
  (WHATWG forgiving-base64 decode). A JavaScript binary string is modelled
  as the list of its UTF-16 code units, i.e. a `List Nat` of byte values,
  so the `charCodeAt` loop of `base64ToBlob` is the identity on that list.

Pan values are modelled as exact rationals (the source returns the literals
0.6, -0.6 and 0).
-/

/-- The apostrophe character (U+0027), written by code point. -/
def apos : Char := Char.ofNat 39

/-- The literal character sequence `o’clock` appearing in both regexes. -/
def oclock : List Char := ['o', apos, 'c', 'l', 'o', 'c', 'k']

/-- JavaScript regex word character: `\w = [A-Za-z0-9_]` (ASCII, as used by
`\b` in non-Unicode mode). -/
def isWordChar (c : Char) : Bool :=
  (decide ('a' ≤ c) && decide (c ≤ 'z')) ||
  (decide ('A' ≤ c) && decide (c ≤ 'Z')) ||
  (decide ('0' ≤ c) && decide (c ≤ '9')) ||
  c == '_'

/-- Non-Unicode case-insensitive canonicalisation of a character for regex
matching: ASCII lowercase letters fold to uppercase; every other character
(including non-ASCII letters, which never canonicalise into ASCII without
the `u` flag) is left unchanged. -/
def canonAscii (c : Char) : Char :=
  if 'a' ≤ c ∧ c ≤ 'z' then Char.ofNat (c.toNat - 32) else c

/-- Character match under the `i` flag: equal after canonicalisation. -/
def charCanonEq (p c : Char) : Bool := canonAscii p == canonAscii c

/-- Does the pattern (first list) match, case-insensitively, a prefix of the
text (second list)? -/
def startsWithCI : List Char → List Char → Bool
  | [], _ => true
  | _ :: _, [] => false
  | p :: ps, c :: cs => charCanonEq p c && startsWithCI ps cs

/-- `\b` holds between the previous character (none at the start of the text)
and a word character exactly when the previous character is not a word
character. -/
def boundaryBefore : Option Char → Bool
  | none => true
  | some c => !isWordChar c

/-- `\b` holds after a word character exactly when the text ends there or the
next character is not a word character. -/
def boundaryAfter : List Char → Bool
  | [] => true
  | c :: _ => !isWordChar c

/-- Does one of the alternatives `d ++ " o’clock"` (for `d` in `ds`) match at
the current position, with a word boundary on each side?  Every alternative
starts with a digit and ends with `k`, both word characters, so `\b` reduces
to `boundaryBefore`/`boundaryAfter`. -/
def matchPhraseAt (ds : List (List Char)) (prev : Option Char) (t : List Char) : Bool :=
  ds.any fun d =>
    let pat := d ++ ' ' :: oclock
    boundaryBefore prev && startsWithCI pat t && boundaryAfter (t.drop pat.length)

/-- `RegExp.test` for `\b(alt₁|…|altₙ) o’clock\b` with the `i` flag: true iff
the phrase matches at some start position of the text.  `prev` carries the
character before the current position for the boundary check. -/
def scanClock (ds : List (List Char)) : Option Char → List Char → Bool
  | _, [] => false
  | prev, c :: cs => matchPhraseAt ds prev (c :: cs) || scanClock ds (some c) cs

/-- The digit alternatives of the regex `right` (app.js line 158). -/
def rightAlts : List (List Char) := [['2'], ['3'], ['4']]

/-- The digit alternatives of the regex `left` (app.js line 159). -/
def leftAlts : List (List Char) := [['8'], ['9'], ['1', '0']]

/-- `right.test(text)` for `right = /\b(2|3|4) o’clock\b/i`. -/
def rightTest (text : List Char) : Bool := scanClock rightAlts none text

/-- `left.test(text)` for `left = /\b(8|9|10) o’clock\b/i`. -/
def leftTest (text : List Char) : Bool := scanClock leftAlts none text

/-- `extractPan` (app.js lines 157-163): 0.6 if the right regex matches,
else -0.6 if the left regex matches, else 0. -/
def extractPan (text : List Char) : ℚ :=
  if rightTest text then 3/5
  else if leftTest text then -(3/5)
  else 0

/-- Scenario 1 input: "Coffee mug at 2 o’clock, 3 feet on your right". -/
def scenario1 : List Char :=
  ("Coffee mug at 2 o".toList) ++ apos :: ("clock, 3 feet on your right".toList)

/-- Scenario 2 input: "Chair at 9 o’clock, 5 feet on your left". -/
def scenario2 : List Char :=
  ("Chair at 9 o".toList) ++ apos :: ("clock, 5 feet on your left".toList)

/-- Scenario 3 input: "Clear path ahead, no obstacles". -/
def scenario3 : List Char := "Clear path ahead, no obstacles".toList

/-- Scenario 4 input: "Exit at 9 o’clock; stairs at 3 o’clock, CAUTION". -/
def scenario4 : List Char :=
  ("Exit at 9 o".toList) ++ apos :: ("clock; stairs at 3 o".toList) ++
    apos :: ("clock, CAUTION".toList)

/-!
### Playback path

`playSpatial` (app.js lines 144-155) builds the audio graph.  Its calls into
the Web Audio API are recorded as an event trace; `decodeAudioData` is the
only fallible step (it rejects on a malformed payload), and its verdict on
the fetched payload is the boolean parameter `decodeOk`.  A rejection
propagates out of the async function as a rejected promise, modelled as the
`some DecodeError.decodeFailed` component of the result; the events already
performed before the rejection stay in the trace, and none of the later
graph-building or start events happen.
-/

/-- The one failure of the playback path: `decodeAudioData` rejects. -/
inductive DecodeError where
  | decodeFailed
deriving DecidableEq, Repr

/-- Observable actions of `playSpatial`, in program order. -/
inductive AudioEvent where
  | newContext
  | fetchUrl
  | decodeData
  | newBufferSource
  | setBuffer
  | newStereoPanner
  | setPan (v : ℚ)
  | connectGraph
  | startPlayback
deriving DecidableEq, Repr

/-- `playSpatial(audioUrl, text)`: the trace of events it performs and,
when `decodeAudioData` rejects, the error with which its promise rejects. -/
def playSpatial (decodeOk : Bool) (text : List Char) :
    List AudioEvent × Option DecodeError :=
  if decodeOk then
    ([AudioEvent.newContext, AudioEvent.fetchUrl, AudioEvent.decodeData,
      AudioEvent.newBufferSource, AudioEvent.setBuffer,
      AudioEvent.newStereoPanner, AudioEvent.setPan (extractPan text),
      AudioEvent.connectGraph, AudioEvent.startPlayback], none)
  else
    ([AudioEvent.newContext, AudioEvent.fetchUrl, AudioEvent.decodeData],
      some DecodeError.decodeFailed)

/-- JavaScript falsiness of `data.audioBase64`: the field is absent
(`undefined`/`null`) or the empty string. -/
def jsFalsyStr : Option String → Bool
  | none => true
  | some s => s.isEmpty

/-- How a call to `speakDescription` returns. -/
inductive SpeakOutcome where
  | noText
  | skippedNoAudio
  | played (events : List AudioEvent)
  | errorLogged (e : DecodeError)
deriving DecidableEq, Repr

/-- `speakDescription(text)` (app.js lines 121-142): returns at once on empty
text; returns without playback when the TTS response has no `audioBase64`;
otherwise runs `playSpatial`, and its try/catch turns a rejection of
`playSpatial` into a `console.error` log followed by a normal return. -/
def speakDescription (text : List Char) (audioBase64 : Option String)
    (decodeOk : Bool) : SpeakOutcome :=
  if text.isEmpty then SpeakOutcome.noText
  else if jsFalsyStr audioBase64 then SpeakOutcome.skippedNoAudio
  else
    match playSpatial decodeOk text with
    | (evs, none) => SpeakOutcome.played evs
    | (_, some e) => SpeakOutcome.errorLogged e

/-- The `playSpatial` events performed during a `speakDescription` call. -/
def outcomeEvents : SpeakOutcome → List AudioEvent
  | SpeakOutcome.played evs => evs
  | _ => []

/-- The error reported by a `speakDescription` call, if any. -/
def outcomeError : SpeakOutcome → Option DecodeError
  | SpeakOutcome.errorLogged e => some e
  | _ => none

/-!
### base64 decoding

`base64ToBlob` (app.js lines 172-179) calls the platform `atob`, reads the
bytes of the resulting binary string with `charCodeAt`, and wraps them in a
`Blob` with the supplied MIME type.  `atob` implements the WHATWG
forgiving-base64 decode: strip ASCII whitespace, strip one or two trailing
`=` when the length is a multiple of 4, reject a remaining length of 1 mod 4
or any character outside the base64 alphabet, and decode sextets to bytes
(a final partial group of 2 or 3 sextets yields 1 or 2 bytes, leftover bits
discarded).  A binary string is modelled as the list of its UTF-16 code
units (byte values), so the `charCodeAt` loop is the identity on it.
-/

/-- The padding character `=` (U+003D), written by code point. -/
def eqSign : Char := Char.ofNat 61

/-- The base64 alphabet, in value order. -/
def b64Alphabet : List Char :=
  "ABCDEFGHIJKLMNOPQRSTUVWXYZabcdefghijklmnopqrstuvwxyz0123456789+/".toList

/-- The alphabet character of a sextet value. -/
def b64Char (n : Nat) : Char := b64Alphabet.getD n 'A'

/-- Position of a character in a list, counting from `i`. -/
def b64IndexAux : List Char → Nat → Char → Option Nat
  | [], _, _ => none
  | a :: as, i, c => if a == c then some i else b64IndexAux as (i + 1) c

/-- The sextet value of an alphabet character; `none` outside the alphabet. -/
def b64Index (c : Char) : Option Nat := b64IndexAux b64Alphabet 0 c

/-- ASCII whitespace stripped by forgiving-base64 decode: TAB, LF, FF, CR,
SPACE. -/
def isB64Space (c : Char) : Bool :=
  c == Char.ofNat 9 || c == Char.ofNat 10 || c == Char.ofNat 12 ||
    c == Char.ofNat 13 || c == ' '

/-- Step 1 of forgiving-base64 decode: remove ASCII whitespace. -/
def stripWs (s : List Char) : List Char := s.filter fun c => !isB64Space c

/-- Step 2 of forgiving-base64 decode: remove one or two trailing `=`. -/
def dropTrailingEq (s : List Char) : List Char :=
  match s.reverse with
  | c1 :: c2 :: rest =>
      if c1 == eqSign then
        if c2 == eqSign then rest.reverse else (c2 :: rest).reverse
      else s
  | [c1] => if c1 == eqSign then [] else s
  | [] => s

/-- Map every character to its sextet value; fail on the first character
outside the alphabet (step 4 of forgiving-base64 decode; a leftover `=`
also fails here since `=` is not in the alphabet). -/
def mapB64Index : List Char → Option (List Nat)
  | [] => some []
  | c :: cs =>
      match b64Index c, mapB64Index cs with
      | some n, some ns => some (n :: ns)
      | _, _ => none

/-- Decode a sextet list to bytes, four sextets to three bytes; a final group
of two or three sextets yields one or two bytes with the leftover low bits
discarded; a final group of one sextet is impossible after the length check
and rejected here for totality. -/
def sextetsToBytes : List Nat → Option (List Nat)
  | [] => some []
  | [_] => none
  | [n1, n2] => some [n1 * 4 + n2 / 16]
  | [n1, n2, n3] => some [n1 * 4 + n2 / 16, n2 % 16 * 16 + n3 / 4]
  | n1 :: n2 :: n3 :: n4 :: rest =>
      (sextetsToBytes rest).map fun tl =>
        (n1 * 4 + n2 / 16) :: (n2 % 16 * 16 + n3 / 4) :: (n3 % 4 * 64 + n4) :: tl

/-- `atob`: WHATWG forgiving-base64 decode of a string to the byte values of
the resulting binary string; `none` models the thrown
`InvalidCharacterError`. -/
def atobChars (s : List Char) : Option (List Nat) :=
  let s1 := stripWs s
  let s2 := if s1.length % 4 == 0 then dropTrailingEq s1 else s1
  if s2.length % 4 == 1 then none
  else
    match mapB64Index s2 with
    | none => none
    | some ns => sextetsToBytes ns

/-- A `Blob`: its byte content and its MIME type. -/
structure Blob where
  bytes : List Nat
  type : String
deriving DecidableEq, Repr

/-- `base64ToBlob(base64, type)` (app.js lines 172-179): decode with `atob`;
the `charCodeAt` loop reads the byte values of the binary string, which is
the identity on its code-unit list; wrap them in a `Blob` of the given type.
A decode failure propagates as a thrown error, modelled as `none`. -/
def base64ToBlob (base64 : List Char) (type : String) : Option Blob :=
  match atobChars base64 with
  | none => none
  | some byteNumbers => some { bytes := byteNumbers, type := type }

/-- Standard (RFC 4648 §4) base64 encoding of a byte sequence, with `=`
padding: the reference encoding whose left inverse `base64ToBlob` is claimed
to be. -/
def btoaBytes : List Nat → List Char
  | [] => []
  | [a] => [b64Char (a / 4), b64Char (a % 4 * 16), eqSign, eqSign]
  | [a, b] =>
      [b64Char (a / 4), b64Char (a % 4 * 16 + b / 16), b64Char (b % 16 * 4), eqSign]
  | a :: b :: c :: rest =>
      b64Char (a / 4) :: b64Char (a % 4 * 16 + b / 16) ::
        b64Char (b % 16 * 4 + c / 64) :: b64Char (c % 64) :: btoaBytes rest

/-- The sextet values encoded by `btoaBytes`, without padding. -/
def toSextets : List Nat → List Nat
  | [] => []
  | [a] => [a / 4, a % 4 * 16]
  | [a, b] => [a / 4, a % 4 * 16 + b / 16, b % 16 * 4]
  | a :: b :: c :: rest =>
      a / 4 :: (a % 4 * 16 + b / 16) :: (b % 16 * 4 + c / 64) :: c % 64 ::
        toSextets rest

/-- The padding characters for a byte-sequence length. -/
def padChars (len : Nat) : List Char :=
  if len % 3 = 1 then [eqSign, eqSign] else if len % 3 = 2 then [eqSign] else []

/-! ### Sanity checks on concrete inputs -/

example : rightTest scenario1 = true := by decide
example : leftTest scenario1 = false := by decide
example : rightTest scenario2 = false ∧ leftTest scenario2 = true := by decide
example : rightTest scenario3 = false ∧ leftTest scenario3 = false := by decide
example : rightTest scenario4 = true ∧ leftTest scenario4 = true := by decide
example : rightTest (("Exit at 12 o".toList) ++ apos :: "clock".toList) = false := by decide
example : rightTest [] = false ∧ leftTest [] = false := by decide
example : rightTest ("NOTE 2 O".toList ++ apos :: "CLOCK".toList) = true := by decide

example : speakDescription scenario3 none true = SpeakOutcome.skippedNoAudio := by decide
example : speakDescription [] none true = SpeakOutcome.noText := by decide

example : btoaBytes [77, 97, 110] = "TWFu".toList := by decide
example : btoaBytes [77] = ("TQ".toList) ++ [eqSign, eqSign] := by decide
example : atobChars ("TWFu".toList) = some [77, 97, 110] := by decide
example : atobChars (("TQ".toList) ++ [eqSign, eqSign]) = some [77] := by decide
example : atobChars ("TWF".toList) = some [77, 97] := by decide
example : atobChars ("T".toList) = none := by decide
example : atobChars ("T W\nFu".toList) = some [77, 97, 110] := by decide
example : atobChars ("TW!u".toList) = none := by decide
example : base64ToBlob ("TWFu".toList) "audio/mpeg" =
    some { bytes := [77, 97, 110], type := "audio/mpeg" } := by decide

/-! ### Supporting lemmas for the base64 round trip -/
/-- Looking up the alphabet character of a sextet value recovers the value. -/
theorem b64Index_b64Char : ∀ n < 64, b64Index (b64Char n) = some n := by decide

/-- Alphabet characters are not ASCII whitespace. -/
theorem b64Char_not_space : ∀ n < 64, isB64Space (b64Char n) = false := by decide

/-- Alphabet characters are not the padding character. -/
theorem b64Char_ne_eqSign : ∀ n < 64, (b64Char n == eqSign) = false := by decide

/-- The padding character is not ASCII whitespace. -/
theorem eqSign_not_space : isB64Space eqSign = false := by decide

/-- Padding is made of `=` only. -/
theorem mem_padChars (len : Nat) (c : Char) (hc : c ∈ padChars len) : c = eqSign := by
  unfold padChars at hc
  split at hc
  · simp_all
  · split at hc <;> simp_all

/-- The encoder output is the alphabet image of the sextets plus padding. -/
theorem btoa_eq_sextets : ∀ bs : List Nat,
    btoaBytes bs = (toSextets bs).map b64Char ++ padChars bs.length
  | [] => rfl
  | [a] => rfl
  | [a, b] => rfl
  | a :: b :: c :: rest => by
      simp only [btoaBytes, toSextets, List.map_cons, List.cons_append,
        List.length_cons]
      rw [btoa_eq_sextets rest]
      have h3 : padChars (rest.length + 1 + 1 + 1) = padChars rest.length := by
        unfold padChars
        have : (rest.length + 1 + 1 + 1) % 3 = rest.length % 3 := by omega
        rw [this]
      rw [h3]

/-- Sextets of bounded bytes are sextet values. -/
theorem toSextets_lt : ∀ bs : List Nat, (∀ b ∈ bs, b < 256) →
    ∀ s ∈ toSextets bs, s < 64
  | [], _, s, hs => by simp [toSextets] at hs
  | [a], h, s, hs => by
      have ha : a < 256 := h a (by simp)
      simp only [toSextets, List.mem_cons, List.mem_singleton,
        List.not_mem_nil, or_false] at hs
      rcases hs with rfl | rfl <;> omega
  | [a, b], h, s, hs => by
      have ha : a < 256 := h a (by simp)
      have hb : b < 256 := h b (by simp)
      simp only [toSextets, List.mem_cons, List.not_mem_nil, or_false] at hs
      rcases hs with rfl | rfl | rfl <;> omega
  | a :: b :: c :: rest, h, s, hs => by
      have ha : a < 256 := h a (by simp)
      have hb : b < 256 := h b (by simp)
      have hc : c < 256 := h c (by simp)
      simp only [toSextets, List.mem_cons] at hs
      rcases hs with rfl | rfl | rfl | rfl | hs
      · omega
      · omega
      · omega
      · omega
      · exact toSextets_lt rest (fun x hx => h x (by simp [hx])) s hs

/-- The encoder output contains no whitespace, so step 1 of the decode is
the identity on it. -/
theorem stripWs_btoa (bs : List Nat) (h : ∀ b ∈ bs, b < 256) :
    stripWs (btoaBytes bs) = btoaBytes bs := by
  have hall : ∀ c ∈ btoaBytes bs, (!isB64Space c) = true := by
    intro c hc
    rw [btoa_eq_sextets bs] at hc
    rcases List.mem_append.mp hc with hc | hc
    · rcases List.mem_map.mp hc with ⟨s, hs, rfl⟩
      simp [b64Char_not_space s (toSextets_lt bs h s hs)]
    · rw [mem_padChars bs.length c hc]
      simp [eqSign_not_space]
  exact List.filter_eq_self.mpr hall

/-- The encoder output length is a multiple of 4. -/
theorem btoa_len_mod4 : ∀ bs : List Nat, (btoaBytes bs).length % 4 = 0
  | [] => rfl
  | [a] => by simp [btoaBytes]
  | [a, b] => by simp [btoaBytes]
  | a :: b :: c :: rest => by
      have ih := btoa_len_mod4 rest
      simp only [btoaBytes, List.length_cons]
      omega

/-- The sextet-list length is never 1 mod 4. -/
theorem toSextets_len_mod4 : ∀ bs : List Nat, (toSextets bs).length % 4 ≠ 1
  | [] => by simp [toSextets]
  | [a] => by simp [toSextets]
  | [a, b] => by simp [toSextets]
  | a :: b :: c :: rest => by
      have ih := toSextets_len_mod4 rest
      simp only [toSextets, List.length_cons]
      omega

/-- A nonempty byte sequence has a nonempty sextet list. -/
theorem toSextets_ne_nil : ∀ bs : List Nat, bs ≠ [] → toSextets bs ≠ []
  | [], h => absurd rfl h
  | [a], _ => by simp [toSextets]
  | [a, b], _ => by simp [toSextets]
  | a :: b :: c :: rest, _ => by simp [toSextets]

/-- Dropping trailing `=` after two appended `=` recovers the front. -/
theorem dropTrailingEq_append_two (xs : List Char) :
    dropTrailingEq (xs ++ [eqSign, eqSign]) = xs := by
  unfold dropTrailingEq
  have hrev : (xs ++ [eqSign, eqSign]).reverse = eqSign :: eqSign :: xs.reverse := by
    simp
  rw [hrev]
  simp

/-- Dropping trailing `=` after one appended `=` recovers the front when the
front does not itself end in `=`. -/
theorem dropTrailingEq_append_one (ys : List Char) (c : Char)
    (hc : (c == eqSign) = false) :
    dropTrailingEq (ys ++ [c] ++ [eqSign]) = ys ++ [c] := by
  unfold dropTrailingEq
  have hrev : (ys ++ [c] ++ [eqSign]).reverse = eqSign :: c :: ys.reverse := by
    simp
  rw [hrev]
  simp [hc]

/-- Dropping trailing `=` is the identity on a list without `=`. -/
theorem dropTrailingEq_no_eq (xs : List Char)
    (h : ∀ c ∈ xs, (c == eqSign) = false) : dropTrailingEq xs = xs := by
  unfold dropTrailingEq
  cases hrev : xs.reverse with
  | nil => rfl
  | cons c1 tl =>
      have hc1 : c1 ∈ xs := by
        rw [← List.mem_reverse, hrev]; simp
      cases tl with
      | nil => simp [h c1 hc1]
      | cons c2 tl2 => simp [h c1 hc1]

/-- Decoding the alphabet image of sextet values recovers the values. -/
theorem mapB64Index_map (ns : List Nat) (h : ∀ s ∈ ns, s < 64) :
    mapB64Index (ns.map b64Char) = some ns := by
  induction ns with
  | nil => rfl
  | cons s tl ih =>
      have hs := b64Index_b64Char s (h s (by simp))
      have htl := ih fun x hx => h x (by simp [hx])
      simp [mapB64Index, hs, htl]

/-- Decoding the sextets of a byte sequence recovers the bytes. -/
theorem sextetsToBytes_toSextets : ∀ bs : List Nat, (∀ b ∈ bs, b < 256) →
    sextetsToBytes (toSextets bs) = some bs
  | [], _ => rfl
  | [a], _ => by
      simp only [toSextets, sextetsToBytes, Option.some.injEq, List.cons.injEq,
        and_true]
      omega
  | [a, b], h => by
      have hb : b < 256 := h b (by simp)
      simp only [toSextets, sextetsToBytes, Option.some.injEq, List.cons.injEq,
        and_true]
      constructor <;> omega
  | a :: b :: c :: rest, h => by
      have hb : b < 256 := h b (by simp)
      have hc : c < 256 := h c (by simp)
      have ih := sextetsToBytes_toSextets rest fun x hx => h x (by simp [hx])
      simp only [toSextets, sextetsToBytes, ih, Option.map_some',
        Option.some.injEq, List.cons.injEq]
      refine ⟨by omega, by omega, by omega, trivial⟩

/-- `atob` is a left inverse of standard base64 encoding on byte sequences. -/
theorem atob_btoa (bs : List Nat) (h : ∀ b ∈ bs, b < 256) :
    atobChars (btoaBytes bs) = some bs := by
  have hne : ∀ c ∈ (toSextets bs).map b64Char, (c == eqSign) = false := by
    intro c hc
    rcases List.mem_map.mp hc with ⟨s, hs, rfl⟩
    exact b64Char_ne_eqSign s (toSextets_lt bs h s hs)
  have hdrop : dropTrailingEq (btoaBytes bs) = (toSextets bs).map b64Char := by
    rw [btoa_eq_sextets bs]
    by_cases h1 : bs.length % 3 = 1
    · rw [padChars, if_pos h1, dropTrailingEq_append_two]
    · by_cases h2 : bs.length % 3 = 2
      · rw [padChars, if_neg h1, if_pos h2]
        have hbs : bs ≠ [] := by
          intro he; subst he; simp at h2
        have hxs : (toSextets bs).map b64Char ≠ [] := fun he =>
          toSextets_ne_nil bs hbs (List.map_eq_nil_iff.mp he)
        rcases List.eq_nil_or_concat ((toSextets bs).map b64Char) with he | ⟨ys, c, hyc⟩
        · exact absurd he hxs
        · rw [List.concat_eq_append] at hyc
          rw [hyc]
          have hcc : (c == eqSign) = false := hne c (by rw [hyc]; simp)
          exact dropTrailingEq_append_one ys c hcc
      · rw [padChars, if_neg h1, if_neg h2, List.append_nil]
        exact dropTrailingEq_no_eq _ hne
  have hmap := mapB64Index_map (toSextets bs) (toSextets_lt bs h)
  have hsx := sextetsToBytes_toSextets bs h
  unfold atobChars
  simp only [stripWs_btoa bs h, btoa_len_mod4 bs, hdrop, hmap, hsx,
    List.length_map]
  have hcond : (((toSextets bs).map b64Char).length % 4 == 1) = false := by
    simpa using toSextets_len_mod4 bs
  simp [hcond, hmap, hsx]
  exact toSextets_len_mod4 bs

/-- C10: `base64ToBlob` is a left inverse of standard base64 encoding: on the
encoding of any byte sequence it returns a blob with exactly those bytes and
the supplied MIME type. -/
theorem base64ToBlob_leftInverse (bs : List Nat) (ty : String)
    (h : ∀ b ∈ bs, b < 256) :
    base64ToBlob (btoaBytes bs) ty = some { bytes := bs, type := ty } := by
  unfold base64ToBlob
  rw [atob_btoa bs h]

/-- C10 witness: the bytes 77, 97, 110 (whose encoding is "TWFu"). -/
theorem base64ToBlob_leftInverse_holds :
    (∀ b ∈ [77, 97, 110], b < 256) ∧
    base64ToBlob (btoaBytes [77, 97, 110]) "audio/mpeg" =
      some { bytes := [77, 97, 110], type := "audio/mpeg" } :=
  ⟨by decide, base64ToBlob_leftInverse [77, 97, 110] "audio/mpeg" (by decide)⟩

/-! ### Claim theorems for the direction extractor -/

/-- C1: a text with a case-insensitive whole-word match of "2 o’clock",
"3 o’clock" or "4 o’clock" (so `right.test` succeeds) and no left-range
phrase makes `extractPan` return +0.6. -/
theorem extractPan_rightPhrase (t : List Char)
    (hr : rightTest t = true) (hl : leftTest t = false) :
    extractPan t = 3/5 := by
  simp [extractPan, hr]

/-- C1 witness: scenario 1, "Coffee mug at 2 o’clock, 3 feet on your right". -/
theorem extractPan_rightPhrase_holds :
    rightTest scenario1 = true ∧ leftTest scenario1 = false ∧
      extractPan scenario1 = 3/5 :=
  ⟨by decide, by decide, extractPan_rightPhrase scenario1 (by decide) (by decide)⟩

/-- C2: a text with a case-insensitive whole-word match of "8 o’clock",
"9 o’clock" or "10 o’clock" and no right-range phrase makes `extractPan`
return -0.6. -/
theorem extractPan_leftPhrase (t : List Char)
    (hl : leftTest t = true) (hr : rightTest t = false) :
    extractPan t = -(3/5) := by
  simp [extractPan, hr, hl]

/-- C2 witness: scenario 2, "Chair at 9 o’clock, 5 feet on your left". -/
theorem extractPan_leftPhrase_holds :
    leftTest scenario2 = true ∧ rightTest scenario2 = false ∧
      extractPan scenario2 = -(3/5) :=
  ⟨by decide, by decide, extractPan_leftPhrase scenario2 (by decide) (by decide)⟩

/-- C3: when the text contains both a right-range and a left-range phrase
(in either order), the right branch wins and `extractPan` returns +0.6. -/
theorem extractPan_rightPrecedence (t : List Char)
    (hr : rightTest t = true) (hl : leftTest t = true) :
    extractPan t = 3/5 := by
  simp [extractPan, hr]

/-- C3 witness: scenario 4, "Exit at 9 o’clock; stairs at 3 o’clock, CAUTION",
where the left-range phrase comes first in the text. -/
theorem extractPan_rightPrecedence_holds :
    rightTest scenario4 = true ∧ leftTest scenario4 = true ∧
      extractPan scenario4 = 3/5 :=
  ⟨by decide, by decide, extractPan_rightPrecedence scenario4 (by decide) (by decide)⟩

/-- C4: a text with neither a right-range nor a left-range whole-word clock
phrase makes `extractPan` return exactly 0. -/
theorem extractPan_center (t : List Char)
    (hr : rightTest t = false) (hl : leftTest t = false) :
    extractPan t = 0 := by
  simp [extractPan, hr, hl]

/-- C4 witness: scenario 3 ("Clear path ahead, no obstacles"), the empty
string, and a text mentioning "12 o’clock", all map to 0. -/
theorem extractPan_center_holds :
    extractPan scenario3 = 0 ∧ extractPan [] = 0 ∧
      extractPan (("Exit at 12 o".toList) ++ apos :: "clock".toList) = 0 :=
  ⟨extractPan_center scenario3 (by decide) (by decide),
   extractPan_center [] (by decide) (by decide),
   extractPan_center (("Exit at 12 o".toList) ++ apos :: "clock".toList)
     (by decide) (by decide)⟩

/-- C5: `extractPan` always returns a valid PanValue in [-1, 1]. -/
theorem extractPan_mem_panRange (t : List Char) :
    -1 ≤ extractPan t ∧ extractPan t ≤ 1 := by
  unfold extractPan
  split
  · norm_num
  · split
    · norm_num
    · norm_num

/-- C6: `extractPan` is total and pure: every input (the empty or malformed
ones included) yields one of the three literal results, and equal inputs
yield equal outputs. -/
theorem extractPan_total_deterministic :
    (∀ t : List Char,
        extractPan t = 3/5 ∨ extractPan t = -(3/5) ∨ extractPan t = 0) ∧
    (∀ t₁ t₂ : List Char, t₁ = t₂ → extractPan t₁ = extractPan t₂) := by
  constructor
  · intro t
    unfold extractPan
    split
    · exact Or.inl rfl
    · split
      · exact Or.inr (Or.inl rfl)
      · exact Or.inr (Or.inr rfl)
  · intro t₁ t₂ h
    rw [h]

/-- C6 witness: determinism applied at a concrete input. -/
theorem extractPan_total_deterministic_holds :
    extractPan scenario3 = extractPan scenario3 :=
  extractPan_total_deterministic.2 scenario3 scenario3 rfl
/-- C7: with an absent or empty `audioBase64` in the TTS response,
`speakDescription` is a no-op: playback never starts and no error is
raised or reported; the function returns normally (one of the two early
returns). -/
theorem speakDescription_skips_empty_audio (text : List Char)
    (audioBase64 : Option String) (decodeOk : Bool)
    (h : jsFalsyStr audioBase64 = true) :
    AudioEvent.startPlayback ∉ outcomeEvents (speakDescription text audioBase64 decodeOk) ∧
    outcomeError (speakDescription text audioBase64 decodeOk) = none ∧
    (speakDescription text audioBase64 decodeOk = SpeakOutcome.noText ∨
      speakDescription text audioBase64 decodeOk = SpeakOutcome.skippedNoAudio) := by
  unfold speakDescription
  by_cases ht : text.isEmpty
  · simp [ht, outcomeEvents, outcomeError]
  · simp [ht, h, outcomeEvents, outcomeError]

/-- C7 witness: a TTS response with no `audioBase64` field. -/
theorem speakDescription_skips_empty_audio_holds :
    jsFalsyStr none = true ∧
    AudioEvent.startPlayback ∉ outcomeEvents (speakDescription scenario3 none true) ∧
    outcomeError (speakDescription scenario3 none true) = none :=
  ⟨by decide,
   (speakDescription_skips_empty_audio scenario3 none true (by decide)).1,
   (speakDescription_skips_empty_audio scenario3 none true (by decide)).2.1⟩

/-- C8: on a payload that cannot be decoded, `playSpatial` never starts
playback and rejects with the decode failure; the immediate caller
`speakDescription` catches that rejection and returns normally with the
error logged, so nothing escapes as an unhandled fault. -/
theorem playSpatial_decode_failure (text : List Char) (audioBase64 : Option String)
    (ht : text.isEmpty = false) (ha : jsFalsyStr audioBase64 = false) :
    (playSpatial false text).2 = some DecodeError.decodeFailed ∧
    AudioEvent.startPlayback ∉ (playSpatial false text).1 ∧
    speakDescription text audioBase64 false =
      SpeakOutcome.errorLogged DecodeError.decodeFailed := by
  refine ⟨rfl, by simp [playSpatial], ?_⟩
  unfold speakDescription
  simp [ht, ha, playSpatial]

/-- C8 witness: a nonempty text and a nonempty (malformed) payload. -/
theorem playSpatial_decode_failure_holds :
    (scenario3.isEmpty = false ∧ jsFalsyStr (some "notaudio") = false) ∧
    (playSpatial false scenario3).2 = some DecodeError.decodeFailed ∧
    AudioEvent.startPlayback ∉ (playSpatial false scenario3).1 ∧
    speakDescription scenario3 (some "notaudio") false =
      SpeakOutcome.errorLogged DecodeError.decodeFailed :=
  ⟨⟨by decide, by decide⟩,
   playSpatial_decode_failure scenario3 (some "notaudio") (by decide) (by decide)⟩

/-- C9: whenever `playSpatial` starts playback, the pan control has already
been set — strictly earlier in the trace — to the pan value extracted from
the supplied text, and that is the only pan write in the whole trace (so the
pan is never changed once playback runs, and playback never begins with the
pan unset). -/
theorem playSpatial_pan_set_before_start (decodeOk : Bool) (text : List Char)
    (h : AudioEvent.startPlayback ∈ (playSpatial decodeOk text).1) :
    ∃ i j : Nat, i < j ∧
      (playSpatial decodeOk text).1[i]? = some (AudioEvent.setPan (extractPan text)) ∧
      (playSpatial decodeOk text).1[j]? = some AudioEvent.startPlayback ∧
      ∀ k v, (playSpatial decodeOk text).1[k]? = some (AudioEvent.setPan v) →
        k = 6 ∧ v = extractPan text := by
  cases decodeOk with
  | false => simp [playSpatial] at h
  | true =>
    refine ⟨6, 8, by omega, rfl, rfl, ?_⟩
    intro k v hk
    simp only [playSpatial, if_pos rfl] at hk
    rcases k with _|_|_|_|_|_|_|_|_|k <;> simp_all

/-- C9 witness: a successfully decoded payload with the scenario 1 text. -/
theorem playSpatial_pan_set_before_start_holds :
    AudioEvent.startPlayback ∈ (playSpatial true scenario1).1 ∧
    ∃ i j : Nat, i < j ∧
      (playSpatial true scenario1).1[i]? = some (AudioEvent.setPan (extractPan scenario1)) ∧
      (playSpatial true scenario1).1[j]? = some AudioEvent.startPlayback ∧
      ∀ k v, (playSpatial true scenario1).1[k]? = some (AudioEvent.setPan v) →
        k = 6 ∧ v = extractPan scenario1 :=
  ⟨by simp [playSpatial],
   playSpatial_pan_set_before_start true scenario1 (by simp [playSpatial])⟩
